import Mathlib

/-!
Verification development for the Discord relay server
(`src/services/discord-bot.ts`, `src/handlers/discord-handler.ts`,
`src/middleware/auth.ts`).

The subscription registry (`DiscordBot.channelSubscriptions`, a JavaScript
`Map<string, Set<string>>` from channel ids to subscriber ids) is embedded
as an association list `List (String × List String)`: `Map` keeps unique
keys in insertion order, and each `Set` keeps unique members in insertion
order, so the list model mirrors it entry for entry.
-/

set_option autoImplicit false
set_option linter.unusedVariables false

namespace DiscordBot

/-- The `channelSubscriptions` map: channel id → subscriber ids.
A `Map<string, Set<string>>` in the source, modelled as an association
list in insertion order. -/
abbrev Registry := List (String × List String)

/-- `this.channelSubscriptions.has(channelId)`. -/
def hasKey (m : Registry) (ch : String) : Bool :=
  match m with
  | [] => false
  | (k, _) :: rest => if k = ch then true else hasKey rest ch

/-- `this.channelSubscriptions.get(channelId)`: `undefined` when absent. -/
def getSet (m : Registry) (ch : String) : Option (List String) :=
  match m with
  | [] => none
  | (k, v) :: rest => if k = ch then some v else getSet rest ch

/-- In-place mutation of the set stored under `ch`
(`this.channelSubscriptions.get(ch)!.add(...)` mutates the stored set). -/
def updateSet (m : Registry) (ch : String) (f : List String → List String) :
    Registry :=
  match m with
  | [] => []
  | (k, v) :: rest =>
      if k = ch then (k, f v) :: rest else (k, v) :: updateSet rest ch f

/-- `this.channelSubscriptions.delete(channelId)`. -/
def deleteKey (m : Registry) (ch : String) : Registry :=
  match m with
  | [] => []
  | (k, v) :: rest => if k = ch then rest else (k, v) :: deleteKey rest ch

/-- `Set.prototype.add`: appends the element unless already present. -/
def setAdd (s : List String) (x : String) : List String :=
  if x ∈ s then s else s ++ [x]

/-- `Set.prototype.delete`: removes the element if present. -/
def setDelete (s : List String) (x : String) : List String :=
  s.erase x

/--
`subscribeToChannel(channelId, userId)` from `src/services/discord-bot.ts`
lines 179-186:
```
if (!this.channelSubscriptions.has(channelId)) \x7b
  this.channelSubscriptions.set(channelId, new Set());
\x7d
this.channelSubscriptions.get(channelId)!.add(userId);
```
`Map.set` of a fresh key appends it in insertion order.
-/
def subscribeToChannel (m : Registry) (channelId userId : String) : Registry :=
  let m1 := if hasKey m channelId then m else m ++ [(channelId, [])]
  updateSet m1 channelId (fun s => setAdd s userId)

/--
`unsubscribeFromChannel(channelId, userId)` from
`src/services/discord-bot.ts` lines 188-200:
```
const subscribers = this.channelSubscriptions.get(channelId);
if (subscribers) \x7b
  subscribers.delete(userId);
  if (subscribers.size === 0) \x7b
    this.channelSubscriptions.delete(channelId);
  \x7d
\x7d
```
-/
def unsubscribeFromChannel (m : Registry) (channelId userId : String) :
    Registry :=
  match getSet m channelId with
  | none => m
  | some s =>
      let s2 := setDelete s userId
      if s2.isEmpty then deleteKey m channelId
      else updateSet m channelId (fun _ => s2)

/-- The registry read used on the dispatch path: the subscriber set of a
channel, empty when the channel has no entry. -/
def listSubscribers (m : Registry) (ch : String) : List String :=
  (getSet m ch).getD []

/-- One registry mutation: the two mutating entry points of the registry. -/
inductive RegOp where
  | sub (channelId userId : String)
  | unsub (channelId userId : String)

/-- Apply one registry operation. -/
def applyOp (m : Registry) : RegOp → Registry
  | .sub ch uid => subscribeToChannel m ch uid
  | .unsub ch uid => unsubscribeFromChannel m ch uid

/-- Apply a sequence of registry operations in order. -/
def applyOps (m : Registry) (ops : List RegOp) : Registry :=
  ops.foldl applyOp m

/-- The data-model invariant of the registry: no entry holds an empty
subscriber set. -/
def NoEmptyEntries (m : Registry) : Prop :=
  ∀ p : String × List String, p ∈ m → p.2 ≠ []

theorem getSet_none_forall {m : Registry} {ch : String}
    (h : getSet m ch = none) : ∀ p : String × List String, p ∈ m → p.1 ≠ ch := by
  induction m with
  | nil => intro p hp; simp at hp
  | cons q rest ih =>
      obtain ⟨k, v⟩ := q
      by_cases hk : k = ch
      · simp [getSet, hk] at h
      · simp only [getSet, if_neg hk] at h
        intro p hp
        rcases List.mem_cons.mp hp with h1 | h1
        · rw [h1]; exact hk
        · exact ih h p h1

theorem hasKey_false_getSet {m : Registry} {ch : String}
    (h : hasKey m ch = false) : getSet m ch = none := by
  induction m with
  | nil => rfl
  | cons p rest ih =>
      obtain ⟨k, v⟩ := p
      by_cases hk : k = ch
      · simp [hasKey, hk] at h
      · simp only [hasKey, if_neg hk] at h
        simp only [getSet, if_neg hk]
        exact ih h

theorem hasKey_true_getSet {m : Registry} {ch : String}
    (h : hasKey m ch = true) : ∃ s, getSet m ch = some s := by
  induction m with
  | nil => simp [hasKey] at h
  | cons p rest ih =>
      obtain ⟨k, v⟩ := p
      by_cases hk : k = ch
      · exact ⟨v, by simp [getSet, hk]⟩
      · simp only [hasKey, if_neg hk] at h
        obtain ⟨s, hs⟩ := ih h
        exact ⟨s, by simp [getSet, hk, hs]⟩

theorem getSet_some_hasKey {m : Registry} {ch : String} {s : List String}
    (h : getSet m ch = some s) : hasKey m ch = true := by
  induction m with
  | nil => simp [getSet] at h
  | cons p rest ih =>
      obtain ⟨k, v⟩ := p
      by_cases hk : k = ch
      · simp [hasKey, hk]
      · simp only [getSet, if_neg hk] at h
        simp only [hasKey, if_neg hk]
        exact ih h

theorem getSet_mem {m : Registry} {ch : String} {s : List String}
    (h : getSet m ch = some s) : (ch, s) ∈ m := by
  induction m with
  | nil => simp [getSet] at h
  | cons p rest ih =>
      obtain ⟨k, v⟩ := p
      by_cases hk : k = ch
      · simp only [getSet, if_pos hk] at h
        subst hk
        obtain rfl : v = s := Option.some.inj h
        exact List.mem_cons_self _ _
      · simp only [getSet, if_neg hk] at h
        exact List.mem_cons_of_mem _ (ih h)

theorem getSet_updateSet_self {m : Registry} {ch : String} {s : List String}
    (f : List String → List String) (h : getSet m ch = some s) :
    getSet (updateSet m ch f) ch = some (f s) := by
  induction m with
  | nil => simp [getSet] at h
  | cons p rest ih =>
      obtain ⟨k, v⟩ := p
      by_cases hk : k = ch
      · simp only [getSet, if_pos hk] at h
        obtain rfl : v = s := Option.some.inj h
        simp [updateSet, getSet, hk]
      · simp only [getSet, if_neg hk] at h
        simp only [updateSet, if_neg hk, getSet, if_neg hk]
        exact ih h

theorem updateSet_append_fresh {m : Registry} {ch : String}
    (v : List String) (f : List String → List String)
    (h : ∀ p : String × List String, p ∈ m → p.1 ≠ ch) :
    updateSet (m ++ [(ch, v)]) ch f = m ++ [(ch, f v)] := by
  induction m with
  | nil => simp [updateSet]
  | cons q rest ih =>
      obtain ⟨k, w⟩ := q
      have hk : k ≠ ch := h (k, w) (List.mem_cons_self _ _)
      simp only [List.cons_append, updateSet, if_neg hk, List.append_eq]
      rw [ih (fun p hp => h p (List.mem_cons_of_mem _ hp))]

theorem mem_updateSet {m : Registry} {ch : String}
    {f : List String → List String} {p : String × List String}
    (h : p ∈ updateSet m ch f) :
    p ∈ m ∨ ∃ s, getSet m ch = some s ∧ p = (ch, f s) := by
  induction m with
  | nil => simp [updateSet] at h
  | cons q rest ih =>
      obtain ⟨k, v⟩ := q
      by_cases hk : k = ch
      · subst hk
        simp only [updateSet, if_pos rfl] at h
        rcases List.mem_cons.mp h with h1 | h1
        · exact Or.inr ⟨v, by simp [getSet], h1⟩
        · exact Or.inl (List.mem_cons_of_mem _ h1)
      · simp only [updateSet, if_neg hk] at h
        rcases List.mem_cons.mp h with h1 | h1
        · exact Or.inl (h1 ▸ List.mem_cons_self _ _)
        · rcases ih h1 with h2 | ⟨s, hs, hp⟩
          · exact Or.inl (List.mem_cons_of_mem _ h2)
          · exact Or.inr ⟨s, by simp [getSet, hk, hs], hp⟩

theorem mem_deleteKey {m : Registry} {ch : String} {p : String × List String}
    (h : p ∈ deleteKey m ch) : p ∈ m := by
  induction m with
  | nil => simp [deleteKey] at h
  | cons q rest ih =>
      obtain ⟨k, v⟩ := q
      by_cases hk : k = ch
      · simp only [deleteKey, if_pos hk] at h
        exact List.mem_cons_of_mem _ h
      · simp only [deleteKey, if_neg hk] at h
        rcases List.mem_cons.mp h with h1 | h1
        · exact h1 ▸ List.mem_cons_self _ _
        · exact List.mem_cons_of_mem _ (ih h1)

theorem hasKey_updateSet (m : Registry) (ch ch' : String)
    (f : List String → List String) :
    hasKey (updateSet m ch' f) ch = hasKey m ch := by
  induction m with
  | nil => rfl
  | cons q rest ih =>
      obtain ⟨k, v⟩ := q
      by_cases hk : k = ch'
      · simp [updateSet, hk, hasKey]
      · simp [updateSet, hk, hasKey, ih]

theorem hasKey_append_self (m : Registry) (ch : String) (v : List String) :
    hasKey (m ++ [(ch, v)]) ch = true := by
  induction m with
  | nil => simp [hasKey]
  | cons q rest ih =>
      obtain ⟨k, w⟩ := q
      by_cases hk : k = ch
      · simp [hasKey, hk]
      · simpa [hasKey, hk] using ih

theorem updateSet_updateSet (m : Registry) (ch : String)
    (f g : List String → List String) :
    updateSet (updateSet m ch f) ch g = updateSet m ch (fun s => g (f s)) := by
  induction m with
  | nil => rfl
  | cons q rest ih =>
      obtain ⟨k, v⟩ := q
      by_cases hk : k = ch
      · simp [updateSet, hk]
      · simp [updateSet, hk, ih]

theorem updateSet_congr (m : Registry) (ch : String)
    (f g : List String → List String) (h : ∀ s, f s = g s) :
    updateSet m ch f = updateSet m ch g := by
  induction m with
  | nil => rfl
  | cons q rest ih =>
      obtain ⟨k, v⟩ := q
      by_cases hk : k = ch
      · simp [updateSet, hk, h v]
      · simp [updateSet, hk, ih]

theorem updateSet_length (m : Registry) (ch : String)
    (f : List String → List String) :
    (updateSet m ch f).length = m.length := by
  induction m with
  | nil => rfl
  | cons q rest ih =>
      obtain ⟨k, v⟩ := q
      by_cases hk : k = ch
      · simp [updateSet, hk]
      · simp [updateSet, hk, ih]

theorem setAdd_mem (s : List String) (x : String) : x ∈ setAdd s x := by
  unfold setAdd
  by_cases hx : x ∈ s
  · simpa [if_pos hx] using hx
  · simp [if_neg hx]

theorem setAdd_idem (s : List String) (x : String) :
    setAdd (setAdd s x) x = setAdd s x := by
  unfold setAdd
  by_cases hx : x ∈ s
  · simp [if_pos hx]
  · simp only [if_neg hx]
    rw [if_pos (by simp)]

theorem subscribe_hasKey (m : Registry) (ch uid : String) :
    hasKey (subscribeToChannel m ch uid) ch = true := by
  unfold subscribeToChannel
  by_cases hk : hasKey m ch = true
  · simp [hk, hasKey_updateSet]
  · have hk' : hasKey m ch = false := by
      cases hhk : hasKey m ch
      · rfl
      · exact absurd hhk hk
    simp [hk', hasKey_updateSet, hasKey_append_self]

theorem setAdd_ne_nil (s : List String) (x : String) : setAdd s x ≠ [] := by
  unfold setAdd
  by_cases hx : x ∈ s
  · simp only [if_pos hx]
    rintro rfl
    simp at hx
  · simp [if_neg hx]

theorem subscribe_preserves_noEmpty {m : Registry} {ch uid : String}
    (h : NoEmptyEntries m) : NoEmptyEntries (subscribeToChannel m ch uid) := by
  intro p hp
  unfold subscribeToChannel at hp
  by_cases hk : hasKey m ch = true
  · simp only [hk, if_true] at hp
    rcases mem_updateSet hp with h1 | ⟨s, _, hp2⟩
    · exact h p h1
    · rw [hp2]; exact setAdd_ne_nil s uid
  · have hk' : hasKey m ch = false := by
      cases hhk : hasKey m ch
      · rfl
      · exact absurd hhk hk
    simp only [hk', Bool.false_eq_true, if_false] at hp
    rw [updateSet_append_fresh [] (fun s => setAdd s uid)
      (getSet_none_forall (hasKey_false_getSet hk'))] at hp
    rcases List.mem_append.mp hp with h1 | h1
    · exact h p h1
    · have : p = (ch, setAdd [] uid) := by simpa using h1
      rw [this]; exact setAdd_ne_nil [] uid

theorem unsubscribe_preserves_noEmpty {m : Registry} {ch uid : String}
    (h : NoEmptyEntries m) : NoEmptyEntries (unsubscribeFromChannel m ch uid) := by
  intro p hp
  unfold unsubscribeFromChannel at hp
  cases hg : getSet m ch with
  | none => rw [hg] at hp; exact h p hp
  | some s =>
      rw [hg] at hp
      simp only at hp
      by_cases he : (setDelete s uid).isEmpty = true
      · rw [if_pos he] at hp
        exact h p (mem_deleteKey hp)
      · rw [if_neg he] at hp
        rcases mem_updateSet hp with h1 | ⟨s', _, hp2⟩
        · exact h p h1
        · rw [hp2]
          simp only [ne_eq]
          intro hnil
          rw [hnil] at he
          simp [List.isEmpty] at he

theorem applyOps_preserves_noEmpty {m : Registry} {ops : List RegOp}
    (h : NoEmptyEntries m) : NoEmptyEntries (applyOps m ops) := by
  induction ops generalizing m with
  | nil => exact h
  | cons op rest ih =>
      cases op with
      | sub ch uid => exact ih (subscribe_preserves_noEmpty h)
      | unsub ch uid => exact ih (unsubscribe_preserves_noEmpty h)

theorem noEmpty_hasKey_iff {m : Registry} (h : NoEmptyEntries m)
    (ch : String) : hasKey m ch = true ↔ listSubscribers m ch ≠ [] := by
  constructor
  · intro hk
    obtain ⟨s, hs⟩ := hasKey_true_getSet hk
    have : s ≠ [] := h (ch, s) (getSet_mem hs)
    simpa [listSubscribers, hs] using this
  · intro hne
    cases hg : getSet m ch with
    | none => simp [listSubscribers, hg] at hne
    | some s => exact getSet_some_hasKey hg

theorem subscribeToChannel_eq (m : Registry) (ch uid : String) :
    subscribeToChannel m ch uid =
      updateSet (if hasKey m ch then m else m ++ [(ch, [])]) ch
        (fun s => setAdd s uid) := rfl

theorem updateSet_const {m : Registry} {ch : String} {s : List String}
    (h : getSet m ch = some s) : updateSet m ch (fun _ => s) = m := by
  induction m with
  | nil => rfl
  | cons q rest ih =>
      obtain ⟨k, v⟩ := q
      by_cases hk : k = ch
      · simp only [getSet, if_pos hk] at h
        obtain rfl : v = s := Option.some.inj h
        simp [updateSet, hk]
      · simp only [getSet, if_neg hk] at h
        simp [updateSet, hk, ih h]

/-- **C7.** Subscribing twice with the same `(channelId, userId)` yields
exactly the same registry state as subscribing once, and a single
`subscribeToChannel` call grows the registry by at most one channel
entry. -/
theorem subscribe_idempotent (m : Registry) (ch uid : String) :
    subscribeToChannel (subscribeToChannel m ch uid) ch uid
        = subscribeToChannel m ch uid ∧
      (subscribeToChannel m ch uid).length ≤ m.length + 1 := by
  constructor
  · have hk := subscribe_hasKey m ch uid
    rw [subscribeToChannel_eq (subscribeToChannel m ch uid), if_pos hk,
      subscribeToChannel_eq m, updateSet_updateSet]
    exact updateSet_congr _ _ _ _ (fun s => setAdd_idem s uid)
  · rw [subscribeToChannel_eq]
    by_cases hk : hasKey m ch = true
    · rw [if_pos hk, updateSet_length]
      omega
    · rw [if_neg hk, updateSet_length, List.length_append]
      simp

/-- **C8.** Unsubscribing a non-member — including from a channel with no
entry at all — is a no-op: given the registry's data-model invariant (no
empty subscriber sets, which every reachable state satisfies by C1),
`unsubscribeFromChannel` returns the registry unchanged. -/
theorem unsubscribe_non_member_noop (m : Registry) (ch uid : String)
    (hinv : NoEmptyEntries m) (hmem : uid ∉ listSubscribers m ch) :
    unsubscribeFromChannel m ch uid = m := by
  cases hg : getSet m ch with
  | none =>
      unfold unsubscribeFromChannel
      rw [hg]
  | some s =>
      have hs : s ≠ [] := hinv (ch, s) (getSet_mem hg)
      have huid : uid ∉ s := by simpa [listSubscribers, hg] using hmem
      have herase : setDelete s uid = s := List.erase_of_not_mem huid
      have hne : s.isEmpty = false := by
        cases s with
        | nil => exact absurd rfl hs
        | cons a t => rfl
      have hstep : unsubscribeFromChannel m ch uid =
          if (setDelete s uid).isEmpty then deleteKey m ch
          else updateSet m ch (fun _ => setDelete s uid) := by
        unfold unsubscribeFromChannel
        simp only [hg]
      rw [hstep, herase, hne, if_neg (by simp)]
      exact updateSet_const hg

/-- Closed witness for C8 at a concrete registry: removing an absent user
from a present channel, and from an absent channel, changes nothing. -/
theorem unsubscribe_non_member_noop_witness :
    unsubscribeFromChannel [("c1", ["u1"])] "c1" "u2" = [("c1", ["u1"])] :=
  unsubscribe_non_member_noop [("c1", ["u1"])] "c1" "u2"
    (by unfold NoEmptyEntries; decide) (by decide)

/-- **C1.** For every sequence of `subscribeToChannel` and
`unsubscribeFromChannel` calls starting from the empty registry, a channel
identifier is present in `channelSubscriptions` iff its subscriber set is
non-empty: no dangling empty entries ever arise. -/
theorem registry_no_empty_entries (ops : List RegOp) (ch : String) :
    hasKey (applyOps [] ops) ch = true ↔
      listSubscribers (applyOps [] ops) ch ≠ [] :=
  noEmpty_hasKey_iff
    (applyOps_preserves_noEmpty (fun p hp => absurd hp (List.not_mem_nil p)))
    ch

/-! ## Event normalization and relay dispatch

`handleNewMessage`, `handleMessageUpdate`, `handleMessageDelete` and
`formatMessage` from `src/services/discord-bot.ts`.  An upstream
`discord.js` `Message` is embedded as `UpMessage`, keeping exactly the
fields the handlers read; optional upstream fields are `Option`s, matching
the `|| default` / `?.` / `??` accesses in the source.  A transport call
`io.of('/discord').to(room).emit(event, payload)` is recorded as a
`TransportCall` value; a handler returns the list of transport calls it
performs. -/

/-- `message.author` as read by `formatMessage`:
`displayName || username`, `displayAvatarURL()`, `bot`. -/
structure UpAuthor where
  id : String
  username : String
  displayName : Option String
  avatarURL : String
  bot : Bool
  deriving DecidableEq

/-- One upstream attachment (`message.attachments` entry). -/
structure UpAttachment where
  id : String
  name : Option String
  url : String
  proxyURL : String
  size : Nat
  contentType : Option String
  width : Option Nat
  height : Option Nat
  deriving DecidableEq

/-- One upstream embed field. -/
structure UpEmbedField where
  name : String
  value : String
  inlineFlag : Option Bool
  deriving DecidableEq

/-- An upstream embed media reference (`thumbnail` / `image`). -/
structure UpEmbedMedia where
  url : String
  deriving DecidableEq

/-- An upstream embed author block. -/
structure UpEmbedAuthor where
  name : String
  iconURL : Option String
  deriving DecidableEq

/-- One upstream embed (`message.embeds` entry). -/
structure UpEmbed where
  title : Option String
  description : Option String
  url : Option String
  color : Option Int
  thumbnail : Option UpEmbedMedia
  image : Option UpEmbedMedia
  author : Option UpEmbedAuthor
  fields : Option (List UpEmbedField)
  deriving DecidableEq

/-- One upstream reaction (`message.reactions.cache` entry):
`reaction.emoji.name || reaction.emoji.toString()`. -/
structure UpReaction where
  emojiName : Option String
  emojiToString : String
  count : Nat
  deriving DecidableEq

/-- The upstream `discord.js` message, restricted to the fields the
handlers read.  `createdAtISO` stands for `message.createdAt.toISOString()`
and `editedAtISO` for `message.editedAt?.toISOString()`. -/
structure UpMessage where
  id : String
  content : String
  author : UpAuthor
  createdAtISO : String
  channelId : String
  guildId : Option String
  attachments : List UpAttachment
  embeds : List UpEmbed
  reactions : List UpReaction
  editedAtISO : Option String
  deriving DecidableEq

/-- Wire-format author (`DiscordMessage.author` in `src/types`). -/
structure MsgAuthor where
  id : String
  username : String
  displayName : String
  avatar : String
  bot : Bool
  deriving DecidableEq

/-- Wire-format attachment. -/
structure MsgAttachment where
  id : String
  filename : String
  url : String
  proxyUrl : String
  size : Nat
  contentType : String
  width : Nat
  height : Nat
  deriving DecidableEq

/-- Wire-format embed field. -/
structure MsgEmbedField where
  name : String
  value : String
  inlineFlag : Bool
  deriving DecidableEq

/-- Wire-format embed media reference. -/
structure MsgEmbedRef where
  url : String
  deriving DecidableEq

/-- Wire-format embed author: `iconUrl` present only when the upstream
author block has an icon URL. -/
structure MsgEmbedAuthor where
  name : String
  iconUrl : Option String
  deriving DecidableEq

/-- Wire-format embed. -/
structure MsgEmbed where
  title : String
  description : String
  url : String
  color : Int
  thumbnail : MsgEmbedRef
  image : MsgEmbedRef
  author : MsgEmbedAuthor
  fields : List MsgEmbedField
  deriving DecidableEq

/-- Wire-format reaction. -/
structure MsgReaction where
  emoji : String
  count : Nat
  users : List String
  deriving DecidableEq

/-- The normalized wire record (`DiscordMessage` in `src/types`). -/
structure DiscordMessage where
  id : String
  content : String
  author : MsgAuthor
  timestamp : String
  channelId : String
  serverId : String
  attachments : List MsgAttachment
  embeds : List MsgEmbed
  reactions : List MsgReaction
  edited : Bool
  editedTimestamp : String
  deriving DecidableEq

/-- `formatMessage(message)` from `src/services/discord-bot.ts`
lines 125-176: field-by-field normalization with the source's defaults
(`|| ''`, `|| 0`, `?? 0`, `|| []`, `|| 'unknown'`). -/
def formatMessage (message : UpMessage) : DiscordMessage where
  id := message.id
  content := message.content
  author :=
    { id := message.author.id
      username := message.author.username
      displayName := message.author.displayName.getD message.author.username
      avatar := message.author.avatarURL
      bot := message.author.bot }
  timestamp := message.createdAtISO
  channelId := message.channelId
  serverId := message.guildId.getD ""
  attachments := message.attachments.map fun att =>
    { id := att.id
      filename := att.name.getD "unknown"
      url := att.url
      proxyUrl := att.proxyURL
      size := att.size
      contentType := att.contentType.getD ""
      width := att.width.getD 0
      height := att.height.getD 0 }
  embeds := message.embeds.map fun embed =>
    { title := embed.title.getD ""
      description := embed.description.getD ""
      url := embed.url.getD ""
      color := embed.color.getD 0
      thumbnail := { url := (embed.thumbnail.map UpEmbedMedia.url).getD "" }
      image := { url := (embed.image.map UpEmbedMedia.url).getD "" }
      author :=
        match embed.author with
        | some a => { name := a.name, iconUrl := a.iconURL }
        | none => { name := "", iconUrl := none }
      fields :=
        (embed.fields.getD []).map fun field =>
          { name := field.name
            value := field.value
            inlineFlag := field.inlineFlag.getD false } }
  reactions := message.reactions.map fun reaction =>
    { emoji := reaction.emojiName.getD reaction.emojiToString
      count := reaction.count
      users := [] }
  edited := false
  editedTimestamp := ""

/-- One call on the transport:
`io.of('/discord').to(room).emit(event, payload)`. -/
inductive TransportCall where
  | emitMessage (room : String) (payload : DiscordMessage)
  | emitMessageUpdate (room : String) (payload : DiscordMessage)
  | emitMessageDelete (room : String) (messageId channelId : String)
  deriving DecidableEq

/-- `handleNewMessage(message)` from `src/services/discord-bot.ts`
lines 77-93: drop bot authors, drop when the channel has no (or an empty)
subscriber set, otherwise emit `message` to `channel:<id>`. -/
def handleNewMessage (reg : Registry) (message : UpMessage) :
    List TransportCall :=
  if message.author.bot then []
  else
    match getSet reg message.channelId with
    | none => []
    | some subscribers =>
        if subscribers.isEmpty then []
        else
          [.emitMessage ("channel:" ++ message.channelId)
            (formatMessage message)]

/-- `handleMessageUpdate(message)` from `src/services/discord-bot.ts`
lines 95-109: drop bot authors, then emit `message_update` with
`edited := true` — the subscriber registry is not consulted. -/
def handleMessageUpdate (reg : Registry) (message : UpMessage) :
    List TransportCall :=
  if message.author.bot then []
  else
    let formatted := formatMessage message
    let formatted :=
      { formatted with
          edited := true
          editedTimestamp := message.editedAtISO.getD "" }
    [.emitMessageUpdate ("channel:" ++ message.channelId) formatted]

/-- `handleMessageDelete(message)` from `src/services/discord-bot.ts`
lines 111-123: always emit `message_delete` with the message and channel
ids — neither the bot flag nor the subscriber registry is consulted. -/
def handleMessageDelete (reg : Registry) (message : UpMessage) :
    List TransportCall :=
  [.emitMessageDelete ("channel:" ++ message.channelId)
    message.id message.channelId]

/-- A concrete non-bot upstream event, used to exercise the dispatch
path on explicit inputs. -/
def sampleEvent : UpMessage where
  id := "m1"
  content := "hi"
  author :=
    { id := "a1", username := "alice", displayName := none
      avatarURL := "", bot := false }
  createdAtISO := "2024-01-01T00:00:00.000Z"
  channelId := "c9"
  guildId := none
  attachments := []
  embeds := []
  reactions := []
  editedAtISO := none

/-- The same event authored by a bot account. -/
def sampleBotEvent : UpMessage :=
  { sampleEvent with
      author :=
        { id := "b1", username := "bot", displayName := none
          avatarURL := "", bot := true } }

/-- **C2 is false as stated**: on the empty registry — where the event's
channel has zero subscribers — a message-updated event and a
message-deleted event each still perform a transport emit
(`handleMessageUpdate` and `handleMessageDelete` never consult the
subscriber registry). -/
theorem update_event_emitted_without_subscribers :
    listSubscribers [] sampleEvent.channelId = [] ∧
      handleMessageUpdate [] sampleEvent ≠ [] ∧
      handleMessageDelete [] sampleEvent ≠ [] := by
  refine ⟨rfl, ?_, ?_⟩ <;>
    simp [handleMessageUpdate, handleMessageDelete, sampleEvent]

/-- **C2 (amended).** Only message-created events are subscription-gated:
for every registry and upstream event whose channel has zero subscribers,
`handleNewMessage` performs no transport emit; message-updated and
message-deleted events are emitted regardless of the subscriber count. -/
theorem new_message_dropped_without_subscribers (reg : Registry)
    (message : UpMessage)
    (h : listSubscribers reg message.channelId = []) :
    handleNewMessage reg message = [] := by
  unfold handleNewMessage
  cases hg : getSet reg message.channelId with
  | none => simp
  | some s =>
      have hs : s = [] := by simpa [listSubscribers, hg] using h
      subst hs
      simp

/-- Closed witness for the amended C2: the sample event on the empty
registry produces no `message` emit. -/
theorem new_message_dropped_without_subscribers_witness :
    handleNewMessage [] sampleEvent = [] :=
  new_message_dropped_without_subscribers [] sampleEvent rfl

/-- **C5.** A bot-authored message event is filtered before normalization:
neither the created handler nor the updated handler performs any transport
call, so no `message` (or `message_update`) event is ever dispatched for
it, whatever the registry holds. -/
theorem bot_messages_never_dispatched (reg : Registry) (message : UpMessage)
    (h : message.author.bot = true) :
    handleNewMessage reg message = [] ∧
      handleMessageUpdate reg message = [] := by
  unfold handleNewMessage handleMessageUpdate
  simp [h]

/-- Closed witness for C5: a concrete bot-authored event on a registry
where its channel has a subscriber still produces no emit. -/
theorem bot_messages_never_dispatched_witness :
    handleNewMessage [("c9", ["u1"])] sampleBotEvent = [] ∧
      handleMessageUpdate [("c9", ["u1"])] sampleBotEvent = [] :=
  bot_messages_never_dispatched [("c9", ["u1"])] sampleBotEvent rfl

/-! ## The per-connection handler

`DiscordHandler` from `src/handlers/discord-handler.ts`: each connection
owns a `joinedChannels : Set<string>` and mutates the shared registry
through `subscribeToChannel` / `unsubscribeFromChannel`.  Socket effects
(`socket.join`, `socket.emit`, `socket.to(room).emit`) are recorded as
`SocketAction` values; callback invocations are returned as lists of
response records (`callback?.(...)` invokes the callback when one was
supplied). -/

/-- The channel info returned by `getChannelInfo` (id, name, type,
serverId, serverName); the numeric `type` enum is irrelevant to the
handler and omitted. -/
structure ChannelInfo where
  id : String
  name : String
  serverId : String
  serverName : String
  deriving DecidableEq

/-- The permissions block of a channel descriptor sent to the client. -/
structure ChannelPermissions where
  canRead : Bool
  canWrite : Bool
  canManage : Bool
  deriving DecidableEq

/-- The channel descriptor payload of the `channels` confirmation emit
(and of `getUserChannels` results); `chType` renders the `type` field. -/
structure ChannelDescriptor where
  id : String
  name : String
  chType : String
  serverId : String
  serverName : String
  position : Nat
  unreadCount : Nat
  isActive : Bool
  permissions : ChannelPermissions
  deriving DecidableEq

/-- One socket-level effect performed by the connection handler. -/
inductive SocketAction where
  | joinGroup (room : String)
  | emitChannels (payload : ChannelDescriptor)
  | emitChannelsList (payload : List ChannelDescriptor)
  | emitError (code : String)
  | userLeft (room : String) (channelId userId username : String)
  deriving DecidableEq

/-- Per-connection handler state: the session's `joinedChannels` set
(a JavaScript `Set<string>`, insertion-ordered and duplicate-free). -/
structure HandlerState where
  joinedChannels : List String
  deriving DecidableEq

/-- The `JoinChannelResponse` callback record. -/
structure JoinChannelResponse where
  success : Bool
  channelId : Option String
  alreadyJoined : Option Bool
  error : Option String
  deriving DecidableEq

/-- The combined outcome of one `handleJoinChannel` invocation. -/
structure JoinResult where
  registry : Registry
  state : HandlerState
  callbacks : List JoinChannelResponse
  actions : List SocketAction
  deriving DecidableEq

/--
`handleJoinChannel(data, callback)` from `src/handlers/discord-handler.ts`
lines 101-144.  The one awaited step that can fail with the claimed
failure modes (unknown channel, upstream error) is
`getChannelInfo(channelId)`, which throws in both cases; its outcome is
passed as `channelLookup` (`none` = it threw, caught by the handler's
`catch`).  On the already-joined short-circuit the callback gets
`\x7bsuccess: true, channelId, alreadyJoined: true\x7d` and nothing else runs;
on lookup failure the `catch` block answers
`\x7bsuccess: false, error: 'Failed to join channel'\x7d`; otherwise the
handler joins the `channel:<id>` group, records the channel in
`joinedChannels`, subscribes `socket.data.discordId` in the registry, and
emits the channel-descriptor confirmation before answering the callback.
-/
def handleJoinChannel (reg : Registry) (st : HandlerState)
    (discordId channelId : String) (channelLookup : Option ChannelInfo) :
    JoinResult :=
  if channelId ∈ st.joinedChannels then
    { registry := reg
      state := st
      callbacks := [{ success := true, channelId := some channelId
                      alreadyJoined := some true, error := none }]
      actions := [] }
  else
    match channelLookup with
    | none =>
        { registry := reg
          state := st
          callbacks := [{ success := false, channelId := none
                          alreadyJoined := none
                          error := some "Failed to join channel" }]
          actions := [] }
    | some info =>
        { registry := subscribeToChannel reg channelId discordId
          state := { joinedChannels := setAdd st.joinedChannels channelId }
          callbacks := [{ success := true, channelId := some channelId
                          alreadyJoined := none, error := none }]
          actions :=
            [ .joinGroup ("channel:" ++ channelId)
            , .emitChannels
                { id := channelId
                  name := info.name
                  chType := "text"
                  serverId := info.serverId
                  serverName := info.serverName
                  position := 0
                  unreadCount := 0
                  isActive := true
                  permissions :=
                    { canRead := true, canWrite := true
                      canManage := false } } ] }

/-- **C6.** Joining a channel already in the session's joined-set
short-circuits: the callback receives `success = true` with the
`alreadyJoined` flag, and the registry, the joined-set and the socket's
group membership are untouched (no subscriber entry is added). -/
theorem join_already_joined_short_circuit (reg : Registry)
    (st : HandlerState) (discordId channelId : String)
    (channelLookup : Option ChannelInfo)
    (h : channelId ∈ st.joinedChannels) :
    handleJoinChannel reg st discordId channelId channelLookup =
      { registry := reg
        state := st
        callbacks := [{ success := true, channelId := some channelId
                        alreadyJoined := some true, error := none }]
        actions := [] } := by
  unfold handleJoinChannel
  simp [h]

/-- Closed witness for C6 at a concrete session that has already joined
channel `c1`. -/
theorem join_already_joined_short_circuit_witness :
    handleJoinChannel [("c1", ["u1"])] ⟨["c1"]⟩ "u1" "c1" none =
      { registry := [("c1", ["u1"])]
        state := ⟨["c1"]⟩
        callbacks := [{ success := true, channelId := some "c1"
                        alreadyJoined := some true, error := none }]
        actions := [] } :=
  join_already_joined_short_circuit [("c1", ["u1"])] ⟨["c1"]⟩ "u1" "c1" none
    (by decide)

/-- **C4.** For a channel not yet in the joined-set, `handleJoinChannel`
is transactional: when the upstream lookup fails (unknown channel or
upstream error) the registry and joined-set are unchanged, no socket
action happens, and failure is reported through the callback; when it
succeeds, all four steps happen — group attach, joined-set update,
registry subscribe, and the confirmation emit — and success is
reported. -/
theorem join_transactional (reg : Registry) (st : HandlerState)
    (discordId channelId : String) (channelLookup : Option ChannelInfo)
    (h : channelId ∉ st.joinedChannels) :
    (channelLookup = none →
        (handleJoinChannel reg st discordId channelId channelLookup).registry
            = reg ∧
          (handleJoinChannel reg st discordId channelId channelLookup).state
            = st ∧
          (handleJoinChannel reg st discordId channelId channelLookup).actions
            = [] ∧
          (handleJoinChannel reg st discordId channelId
              channelLookup).callbacks
            = [{ success := false, channelId := none, alreadyJoined := none
                 error := some "Failed to join channel" }]) ∧
      ∀ info, channelLookup = some info →
        (handleJoinChannel reg st discordId channelId channelLookup).registry
            = subscribeToChannel reg channelId discordId ∧
          (handleJoinChannel reg st discordId channelId channelLookup).state
            = ⟨setAdd st.joinedChannels channelId⟩ ∧
          (handleJoinChannel reg st discordId channelId channelLookup).actions
            = [ .joinGroup ("channel:" ++ channelId)
              , .emitChannels
                  { id := channelId, name := info.name, chType := "text"
                    serverId := info.serverId, serverName := info.serverName
                    position := 0, unreadCount := 0, isActive := true
                    permissions :=
                      { canRead := true, canWrite := true
                        canManage := false } } ] ∧
          (handleJoinChannel reg st discordId channelId
              channelLookup).callbacks
            = [{ success := true, channelId := some channelId
                 alreadyJoined := none, error := none }] := by
  constructor
  · rintro rfl
    unfold handleJoinChannel
    simp [h]
  · rintro info rfl
    unfold handleJoinChannel
    simp [h]

/-- Closed witness for C4: a failed lookup on a fresh channel leaves a
concrete registry and session untouched and reports failure. -/
theorem join_transactional_witness :
    (handleJoinChannel [("c1", ["u1"])] ⟨["c1"]⟩ "u2" "c2" none).registry
        = [("c1", ["u1"])] ∧
      (handleJoinChannel [("c1", ["u1"])] ⟨["c1"]⟩ "u2" "c2" none).state
        = ⟨["c1"]⟩ ∧
      (handleJoinChannel [("c1", ["u1"])] ⟨["c1"]⟩ "u2" "c2" none).actions
        = [] ∧
      (handleJoinChannel [("c1", ["u1"])] ⟨["c1"]⟩ "u2" "c2" none).callbacks
        = [{ success := false, channelId := none, alreadyJoined := none
             error := some "Failed to join channel" }] :=
  (join_transactional [("c1", ["u1"])] ⟨["c1"]⟩ "u2" "c2" none
    (by decide)).1 rfl

/-! ## Disconnect cleanup

`handleDisconnect(reason)` from `src/handlers/discord-handler.ts`
lines 182-200: for every channel in the session's `joinedChannels`,
unsubscribe the session's `discordId` from the registry and broadcast a
`user_left` notification to the channel's room; then clear the set. -/

/-- Structural well-formedness of the registry model, true of every
JavaScript `Map<string, Set<string>>` state: map keys are unique, and
each stored set has no duplicate members. -/
def WellFormed (m : Registry) : Prop :=
  (m.map Prod.fst).Nodup ∧
    ∀ p : String × List String, p ∈ m → p.2.Nodup

theorem unsub_eq_none {m : Registry} {ch uid : String}
    (hg : getSet m ch = none) : unsubscribeFromChannel m ch uid = m := by
  unfold unsubscribeFromChannel
  simp only [hg]

theorem unsub_eq_some {m : Registry} {ch uid : String} {s : List String}
    (hg : getSet m ch = some s) :
    unsubscribeFromChannel m ch uid =
      if (setDelete s uid).isEmpty then deleteKey m ch
      else updateSet m ch (fun _ => setDelete s uid) := by
  unfold unsubscribeFromChannel
  simp only [hg]

theorem not_mem_keys_getSet_none {m : Registry} {ch : String}
    (h : ch ∉ m.map Prod.fst) : getSet m ch = none := by
  cases hg : getSet m ch with
  | none => rfl
  | some s => exact absurd (List.mem_map_of_mem Prod.fst (getSet_mem hg)) h

theorem getSet_deleteKey_self {m : Registry} {ch : String}
    (h : (m.map Prod.fst).Nodup) : getSet (deleteKey m ch) ch = none := by
  induction m with
  | nil => rfl
  | cons q rest ih =>
      obtain ⟨k, v⟩ := q
      simp only [List.map_cons, List.nodup_cons] at h
      by_cases hk : k = ch
      · simp only [deleteKey, if_pos hk]
        subst hk
        exact not_mem_keys_getSet_none h.1
      · simp only [deleteKey, if_neg hk, getSet, if_neg hk]
        exact ih h.2

theorem getSet_deleteKey_ne {m : Registry} {ch ch' : String}
    (h : ch ≠ ch') : getSet (deleteKey m ch') ch = getSet m ch := by
  induction m with
  | nil => rfl
  | cons q rest ih =>
      obtain ⟨k, v⟩ := q
      by_cases hk : k = ch'
      · simp only [deleteKey, if_pos hk]
        subst hk
        simp only [getSet, if_neg (Ne.symm h)]
      · simp only [deleteKey, if_neg hk, getSet]
        by_cases hkc : k = ch
        · simp [hkc]
        · simp [hkc, ih]

theorem getSet_updateSet_ne {m : Registry} {ch ch' : String}
    {f : List String → List String} (h : ch ≠ ch') :
    getSet (updateSet m ch' f) ch = getSet m ch := by
  induction m with
  | nil => rfl
  | cons q rest ih =>
      obtain ⟨k, v⟩ := q
      by_cases hk : k = ch'
      · simp only [updateSet, if_pos hk]
        subst hk
        simp only [getSet, if_neg (Ne.symm h)]
      · simp only [updateSet, if_neg hk, getSet]
        by_cases hkc : k = ch
        · simp [hkc]
        · simp [hkc, ih]

theorem keys_updateSet (m : Registry) (ch : String)
    (f : List String → List String) :
    (updateSet m ch f).map Prod.fst = m.map Prod.fst := by
  induction m with
  | nil => rfl
  | cons q rest ih =>
      obtain ⟨k, v⟩ := q
      by_cases hk : k = ch
      · simp [updateSet, hk]
      · simp [updateSet, hk, ih]

theorem deleteKey_sublist (m : Registry) (ch : String) :
    List.Sublist (deleteKey m ch) m := by
  induction m with
  | nil => simp [deleteKey]
  | cons q rest ih =>
      obtain ⟨k, v⟩ := q
      by_cases hk : k = ch
      · simp only [deleteKey, if_pos hk]
        exact List.sublist_cons_self _ _
      · simp only [deleteKey, if_neg hk]
        exact List.Sublist.cons₂ _ ih

theorem unsub_wellFormed {m : Registry} {ch uid : String}
    (hwf : WellFormed m) :
    WellFormed (unsubscribeFromChannel m ch uid) := by
  cases hg : getSet m ch with
  | none => rwa [unsub_eq_none hg]
  | some s =>
      rw [unsub_eq_some hg]
      by_cases he : (setDelete s uid).isEmpty = true
      · rw [if_pos he]
        exact ⟨hwf.1.sublist ((deleteKey_sublist m ch).map Prod.fst),
          fun p hp => hwf.2 p (mem_deleteKey hp)⟩
      · rw [if_neg he]
        refine ⟨?_, ?_⟩
        · rw [keys_updateSet]
          exact hwf.1
        · intro p hp
          rcases mem_updateSet hp with h1 | ⟨s', hs', hp2⟩
          · exact hwf.2 p h1
          · rw [hg] at hs'
            obtain rfl : s = s' := Option.some.inj hs'
            rw [hp2]
            exact (hwf.2 (ch, s) (getSet_mem hg)).erase uid

theorem not_mem_subs_unsub_self {m : Registry} {ch uid : String}
    (hwf : WellFormed m) :
    uid ∉ listSubscribers (unsubscribeFromChannel m ch uid) ch := by
  cases hg : getSet m ch with
  | none =>
      rw [unsub_eq_none hg]
      simp [listSubscribers, hg]
  | some s =>
      rw [unsub_eq_some hg]
      by_cases he : (setDelete s uid).isEmpty = true
      · rw [if_pos he]
        rw [listSubscribers, getSet_deleteKey_self hwf.1]
        simp
      · rw [if_neg he, listSubscribers, getSet_updateSet_self _ hg]
        simp only [Option.getD_some]
        exact (hwf.2 (ch, s) (getSet_mem hg)).not_mem_erase

theorem not_mem_subs_unsub {m : Registry} {ch ch' uid uid' : String}
    (hwf : WellFormed m) (h : uid ∉ listSubscribers m ch) :
    uid ∉ listSubscribers (unsubscribeFromChannel m ch' uid') ch := by
  by_cases hcc : ch = ch'
  · subst hcc
    cases hg : getSet m ch with
    | none => rwa [unsub_eq_none hg]
    | some s =>
        rw [unsub_eq_some hg]
        by_cases he : (setDelete s uid').isEmpty = true
        · rw [if_pos he]
          rw [listSubscribers, getSet_deleteKey_self hwf.1]
          simp
        · rw [if_neg he, listSubscribers, getSet_updateSet_self _ hg]
          simp only [Option.getD_some]
          intro hmem
          exact h (by simpa [listSubscribers, hg] using
            List.mem_of_mem_erase hmem)
  · cases hg : getSet m ch' with
    | none => rwa [unsub_eq_none hg]
    | some s =>
        rw [unsub_eq_some hg]
        by_cases he : (setDelete s uid').isEmpty = true
        · rw [if_pos he]
          rwa [listSubscribers, getSet_deleteKey_ne hcc]
        · rw [if_neg he]
          rwa [listSubscribers, getSet_updateSet_ne hcc]

/-- The `for (const channelId of this.joinedChannels)` loop of
`handleDisconnect`: unsubscribe each joined channel and broadcast
`user_left` (payload `\x7bchannelId, user: \x7bid: userId, username\x7d\x7d`) to the
channel's room, in iteration order. -/
def disconnectLoop (reg : Registry) (discordId userId username : String) :
    List String → Registry × List SocketAction
  | [] => (reg, [])
  | ch :: rest =>
      let reg1 := unsubscribeFromChannel reg ch discordId
      let r := disconnectLoop reg1 discordId userId username rest
      (r.1, .userLeft ("channel:" ++ ch) ch userId username :: r.2)

/-- `handleDisconnect(reason)` from `src/handlers/discord-handler.ts`
lines 182-200: run the cleanup loop, then `this.joinedChannels.clear()`. -/
def handleDisconnect (reg : Registry) (st : HandlerState)
    (discordId userId username : String) :
    Registry × HandlerState × List SocketAction :=
  let r := disconnectLoop reg discordId userId username st.joinedChannels
  (r.1, ⟨[]⟩, r.2)

theorem disconnectLoop_wellFormed (chs : List String) (reg : Registry)
    (discordId userId username : String) (hwf : WellFormed reg) :
    WellFormed (disconnectLoop reg discordId userId username chs).1 := by
  induction chs generalizing reg with
  | nil => exact hwf
  | cons ch rest ih => exact ih _ (unsub_wellFormed hwf)

theorem disconnectLoop_preserves_not_mem (chs : List String)
    (reg : Registry) (discordId userId username ch : String)
    (hwf : WellFormed reg) (h : discordId ∉ listSubscribers reg ch) :
    discordId ∉
      listSubscribers (disconnectLoop reg discordId userId username chs).1
        ch := by
  induction chs generalizing reg with
  | nil => exact h
  | cons ch0 rest ih =>
      exact ih _ (unsub_wellFormed hwf) (not_mem_subs_unsub hwf h)

theorem disconnectLoop_removes (chs : List String) (reg : Registry)
    (discordId userId username ch : String)
    (hwf : WellFormed reg) (hch : ch ∈ chs) :
    discordId ∉
      listSubscribers (disconnectLoop reg discordId userId username chs).1
        ch := by
  induction chs generalizing reg with
  | nil => exact absurd hch (List.not_mem_nil ch)
  | cons ch0 rest ih =>
      rcases List.mem_cons.mp hch with h1 | h1
      · subst h1
        exact disconnectLoop_preserves_not_mem rest _ discordId userId
          username ch (unsub_wellFormed hwf) (not_mem_subs_unsub_self hwf)
      · exact ih _ (unsub_wellFormed hwf) h1

theorem disconnectLoop_broadcasts (chs : List String) (reg : Registry)
    (discordId userId username : String) :
    (disconnectLoop reg discordId userId username chs).2 =
      chs.map fun ch =>
        .userLeft ("channel:" ++ ch) ch userId username := by
  induction chs generalizing reg with
  | nil => rfl
  | cons ch0 rest ih => simp [disconnectLoop, ih]

/-- **C3.** On disconnect, for every channel in the session's joined-set:
the session's principal is removed from that channel's subscriber set
(`listSubscribers` no longer contains it), a `user_left` broadcast
carrying that channel id goes to the channel's room, and afterwards the
joined-set is empty.  (Well-formedness — unique map keys, duplicate-free
sets — holds of every JavaScript `Map`/`Set` state.) -/
theorem disconnect_cleans_up (reg : Registry) (st : HandlerState)
    (discordId userId username ch : String)
    (hwf : WellFormed reg) (hch : ch ∈ st.joinedChannels) :
    discordId ∉
        listSubscribers
          (handleDisconnect reg st discordId userId username).1 ch ∧
      SocketAction.userLeft ("channel:" ++ ch) ch userId username ∈
        (handleDisconnect reg st discordId userId username).2.2 ∧
      (handleDisconnect reg st discordId userId
          username).2.1.joinedChannels = [] := by
  refine ⟨disconnectLoop_removes _ _ _ _ _ _ hwf hch, ?_, rfl⟩
  rw [show (handleDisconnect reg st discordId userId username).2.2 =
      (disconnectLoop reg discordId userId username st.joinedChannels).2
    from rfl]
  rw [disconnectLoop_broadcasts]
  exact List.mem_map_of_mem _ hch

/-- Closed witness for C3: a session joined to `c1` disconnects; its
principal is gone from the registry, the `user_left` broadcast is
recorded, and the joined-set is cleared. -/
theorem disconnect_cleans_up_witness :
    "u1" ∉
        listSubscribers (handleDisconnect [("c1", ["u1", "u2"])] ⟨["c1"]⟩
          "u1" "id1" "alice").1 "c1" ∧
      SocketAction.userLeft "channel:c1" "c1" "id1" "alice" ∈
        (handleDisconnect [("c1", ["u1", "u2"])] ⟨["c1"]⟩
          "u1" "id1" "alice").2.2 ∧
      (handleDisconnect [("c1", ["u1", "u2"])] ⟨["c1"]⟩
          "u1" "id1" "alice").2.1.joinedChannels = [] :=
  disconnect_cleans_up [("c1", ["u1", "u2"])] ⟨["c1"]⟩ "u1" "id1" "alice"
    "c1" (by unfold WellFormed; decide) (by decide)

/-! ## Channel enumeration

`getUserChannels(userId)` from `src/services/discord-bot.ts`
lines 244-281 wraps the whole guild/member/permission iteration in one
`try/catch` that returns `[]` on any error; the iteration's outcome is
passed in as an `Except` (an `ok` list of descriptors, or the thrown
error).  `handleGetChannels(callback)` from
`src/handlers/discord-handler.ts` lines 74-99 emits `channels_list` and
answers the optional callback; its own `catch` branch can only be reached
when `socket.emit` itself throws, modelled by `emitFails`. -/

/-- `getUserChannels`: the upstream iteration's channels on success, `[]`
when the iteration threw (the `catch` returns `[]`). -/
def getUserChannels
    (upstream : Except Unit (List ChannelDescriptor)) :
    List ChannelDescriptor :=
  match upstream with
  | .ok channels => channels
  | .error _ => []

/-- The `GetChannelsResponse` callback record. -/
structure GetChannelsResponse where
  success : Bool
  channels : List ChannelDescriptor
  error : Option String
  deriving DecidableEq

/-- `handleGetChannels(callback)`: fetch the channels (total — its
internal `catch` already turned an upstream error into `[]`), emit
`channels_list`, answer the callback; if the emit throws, the `catch`
block answers the callback with the structured failure response
(`channels: []`) and emits an `error` event instead. -/
def handleGetChannels (upstream : Except Unit (List ChannelDescriptor))
    (callbackSupplied : Bool) (emitFails : Bool) :
    List GetChannelsResponse × List SocketAction :=
  let channels := getUserChannels upstream
  if emitFails then
    ((if callbackSupplied then
        [{ success := false, channels := []
           error := some "Failed to fetch channels" }]
      else []),
     [.emitError "CHANNELS_FETCH_FAILED"])
  else
    ((if callbackSupplied then
        [{ success := true, channels := channels, error := none }]
      else []),
     [.emitChannelsList channels])

/-- **C9.** Whenever a callback is supplied to `getChannels`, it is
invoked exactly once, and on any upstream error the result it receives
carries an empty channel list — the error is never propagated and the
callback is never left uninvoked. -/
theorem get_channels_always_answers
    (upstream : Except Unit (List ChannelDescriptor))
    (callbackSupplied emitFails : Bool)
    (hcb : callbackSupplied = true) :
    (handleGetChannels upstream callbackSupplied emitFails).1.length = 1 ∧
      ∀ e, upstream = .error e →
        ∀ r ∈ (handleGetChannels upstream callbackSupplied emitFails).1,
          r.channels = [] := by
  subst hcb
  unfold handleGetChannels
  cases emitFails with
  | true =>
      refine ⟨rfl, ?_⟩
      intro e he r hr
      simp at hr
      rw [hr]
  | false =>
      refine ⟨rfl, ?_⟩
      intro e he r hr
      subst he
      simp [getUserChannels] at hr
      rw [hr]

/-- Closed witness for C9: an upstream error with a supplied callback
still yields exactly one callback invocation, carrying `[]`. -/
theorem get_channels_always_answers_witness :
    (handleGetChannels (.error ()) true false).1.length = 1 ∧
      ∀ r ∈ (handleGetChannels (.error ()) true false).1,
        r.channels = [] :=
  ⟨(get_channels_always_answers (.error ()) true false rfl).1,
   (get_channels_always_answers (.error ()) true false rfl).2 () rfl⟩

end DiscordBot

namespace Auth

/-!
`authenticateSocket` from `src/middleware/auth.ts` lines 16-53.  The
`jsonwebtoken` library's error classes: `TokenExpiredError` (and
`NotBeforeError`) `extends JsonWebTokenError`, so an
`instanceof jwt.JsonWebTokenError` test also matches an expired-token
error.
-/

/-- The error thrown by `jwt.verify`, by class. -/
inductive VerifyError where
  | jsonWebTokenError
  | tokenExpiredError
  | otherError
  deriving DecidableEq

/-- `error instanceof jwt.JsonWebTokenError`: also true of
`TokenExpiredError` values, which subclass `JsonWebTokenError`. -/
def isJsonWebTokenError : VerifyError → Bool
  | .jsonWebTokenError => true
  | .tokenExpiredError => true
  | .otherError => false

/-- `error instanceof jwt.TokenExpiredError`. -/
def isTokenExpiredError : VerifyError → Bool
  | .tokenExpiredError => true
  | _ => false

/-- The decoded JWT payload fields the middleware validates. -/
structure AuthPayload where
  discord_id : String
  username : String
  deriving DecidableEq

/-- The middleware's verdict: `next(new Error(message))` or `next()` with
the user attached to `socket.data`. -/
inductive AuthOutcome where
  | failure (message : String)
  | success (user : AuthPayload)
  deriving DecidableEq

/-- `authenticateSocket(socket, next)`: falsy-token check, `jwt.verify`
(outcome passed in as `verifyResult`), required-claim validation (JS
falsy = empty string), and the `catch` branches in source order —
`instanceof JsonWebTokenError` first, `instanceof TokenExpiredError`
second. -/
def authenticateSocket (token : Option String)
    (verifyResult : Except VerifyError AuthPayload) : AuthOutcome :=
  if token = none ∨ token = some "" then
    .failure "Authentication token required"
  else
    match verifyResult with
    | .error e =>
        if isJsonWebTokenError e then
          .failure "Invalid authentication token"
        else if isTokenExpiredError e then
          .failure "Authentication token expired"
        else
          .failure "Authentication failed"
    | .ok decoded =>
        if decoded.username = "" ∨ decoded.discord_id = "" then
          .failure "Invalid token payload"
        else
          .success decoded

/-- **C10.** An expired-token verification error is rejected through the
`JsonWebTokenError` branch with message `Invalid authentication token`,
because `TokenExpiredError` subclasses `JsonWebTokenError` and that test
comes first; no input whatsoever can produce the message
`Authentication token expired` — that branch is unreachable. -/
theorem token_expired_rejected_as_invalid :
    (∀ (token : Option String) (e : VerifyError),
        ¬(token = none ∨ token = some "") →
          isTokenExpiredError e = true →
            authenticateSocket token (.error e) =
              .failure "Invalid authentication token") ∧
      ∀ (token : Option String)
        (verifyResult : Except VerifyError AuthPayload),
        authenticateSocket token verifyResult ≠
          .failure "Authentication token expired" := by
  constructor
  · intro token e htok hexp
    cases e with
    | tokenExpiredError =>
        unfold authenticateSocket
        rw [if_neg htok]
        rfl
    | jsonWebTokenError => simp [isTokenExpiredError] at hexp
    | otherError => simp [isTokenExpiredError] at hexp
  · intro token verifyResult
    unfold authenticateSocket
    by_cases htok : token = none ∨ token = some ""
    · simp [htok]
    · rw [if_neg htok]
      cases verifyResult with
      | error e =>
          cases e with
          | jsonWebTokenError => simp [isJsonWebTokenError]
          | tokenExpiredError => simp [isJsonWebTokenError]
          | otherError => simp [isJsonWebTokenError, isTokenExpiredError]
      | ok decoded =>
          by_cases hval : decoded.username = "" ∨ decoded.discord_id = ""
          · simp [hval]
          · simp [hval]

/-- Closed witness for C10: a concrete expired-token error is answered
with `Invalid authentication token`, not `Authentication token expired`. -/
theorem token_expired_rejected_as_invalid_witness :
    authenticateSocket (some "tok") (.error .tokenExpiredError) =
        .failure "Invalid authentication token" ∧
      authenticateSocket (some "tok") (.error .tokenExpiredError) ≠
        .failure "Authentication token expired" :=
  ⟨token_expired_rejected_as_invalid.1 (some "tok") .tokenExpiredError
      (by decide) rfl,
   token_expired_rejected_as_invalid.2 (some "tok")
      (.error .tokenExpiredError)⟩

end Auth
